import Mathlib

/-!
# Verification of the grade-distribution core of NTU-Score-Viewer

This file gives a shallow embedding of the grade-distribution encoding of
`src/app/models.py` (pydantic models `Segment`, `GradeElement`, `GradeInfo`,
`Page`, and the `validate_semester` function), and proves or refutes the
specification claims about it.

Modelling conventions:
* Python `int` fields are `Int` (`Nat` where the code guarantees
  non-negativity), Python `float` fields are modelled as exact rationals `ℚ`
  (the tolerance checks under scrutiny do not depend on rounding).
* pydantic validation failure is an `Except VErr` error value; the error
  constructors are named after the specification's error kinds.
* Strings are manipulated through their `List Char` data, mirroring the
  Python string operations used by the source (`str.split`, `int(...)`,
  regex search, `repr`, `.encode()`).
-/

set_option maxRecDepth 100000

-- `Rat.add` and friends are `@[irreducible]` in Batteries, which blocks
-- `decide` on concrete rational computations; the embedding evaluates its
-- models on concrete inputs, so restore reducibility.
set_option allowUnsafeReducibility true
attribute [semireducible] Rat.add Rat.mul Rat.sub Rat.inv Rat.div Rat.ofScientific

instance {ε α : Type} [DecidableEq ε] [DecidableEq α] : DecidableEq (Except ε α) := fun x y =>
  match x, y with
  | .ok a, .ok b =>
      if h : a = b then .isTrue (by rw [h]) else .isFalse (by simp [h])
  | .error e, .error f =>
      if h : e = f then .isTrue (by rw [h]) else .isFalse (by simp [h])
  | .ok _, .error _ => .isFalse (by simp)
  | .error _, .ok _ => .isFalse (by simp)

/-- Error kinds of the core, named after the specification's table
(§7 of the spec).  `invalidCourseId` and `invalidIdLen` stand for the
pydantic field errors on `course_id1` and `id` which the spec does not
name individually. -/
inductive VErr where
  | invalidRange
  | invalidWeight
  | sumMismatch
  | nonContiguous
  | invalidSemesterFormat
  | invalidCourseId
  | invalidIdLen
  | invalidDist
  | decodeError
  | integrityMismatch
  deriving DecidableEq, Repr

-- ---------------------------------------------------------------------------
-- Segment (src/app/models.py, class Segment)
-- ---------------------------------------------------------------------------

/-- Model of `class Segment(BaseModel)`: fields `l r : GradeInt` and `value : float`.
`GradeInt` is pydantic-constrained to `ge=0, lt=10`; `value` carries only a
description ("A float in [0, 100].") and *no* constraint. -/
structure Segment where
  l : Int
  r : Int
  value : ℚ
  deriving DecidableEq, Repr

/-- Construction of a `Segment` through pydantic validation: the only
checks performed by the source are the `GradeInt` bounds `0 ≤ l < 10` and
`0 ≤ r < 10`.  There is no `l ≤ r` check and no constraint on `value`. -/
def constructSegment (l r : Int) (value : ℚ) : Except VErr Segment :=
  if 0 ≤ l ∧ l < 10 ∧ 0 ≤ r ∧ r < 10 then
    .ok { l := l, r := r, value := value }
  else
    .error .invalidRange

/-- Model of `Segment.__iter__`: exposes the triple `(l, r, value)`. -/
def Segment.iterTriple (s : Segment) : Int × Int × ℚ := (s.l, s.r, s.value)

/-- Model of `Segment.from_iterable`: unpacks a triple and rebuilds the segment
through `Segment(l=l, r=r, value=value)`, i.e. through validation. -/
def Segment.from_iterable (x : Int × Int × ℚ) : Except VErr Segment :=
  constructSegment x.1 x.2.1 x.2.2

-- ---------------------------------------------------------------------------
-- math.isclose and the segments validator (GradeElement.valiadte_grade_eles)
-- ---------------------------------------------------------------------------

/-- Default relative tolerance of `math.isclose`, i.e. `1e-09`. -/
def relTolDefault : ℚ := 1 / 1000000000

/-- Model of `math.isclose(a, b, abs_tol=t)` over exact rationals:
`|a - b| <= max(rel_tol * max(|a|, |b|), abs_tol)` with the default
`rel_tol = 1e-09`. -/
def isclose (a b absTol : ℚ) : Bool :=
  |a - b| ≤ max (relTolDefault * max |a| |b|) absTol

/-- The accumulated weight `sum(grade.value for grade in v)`. -/
def segSum (v : List Segment) : ℚ := (v.map Segment.value).sum

/-- The adjacency scan of `valiadte_grade_eles`:
`for i in range(len(v) - 1): assert v[i].r + 1 == v[i + 1].l`. -/
def adjacentOk : List Segment → Bool
  | a :: b :: rest => (a.r + 1 == b.l) && adjacentOk (b :: rest)
  | _ => true

/-- Model of `GradeElement.valiadte_grade_eles` (source spelling kept): first the
sum-tolerance check `math.isclose(sum, 100, abs_tol=1)`, then the pairwise
adjacency asserts, in that order.  No sorting, and no check that the first
segment starts at 0 or the last ends at 9. -/
def valiadte_grade_eles (v : List Segment) : Except VErr (List Segment) :=
  if ¬ isclose (segSum v) 100 1 then .error .sumMismatch
  else if ¬ adjacentOk v then .error .nonContiguous
  else .ok v

-- ---------------------------------------------------------------------------
-- Semester validation (src/app/models.py, validate_semester and the
-- `Semester` annotated type with Field(pattern=r"\d+-\d+"))
-- ---------------------------------------------------------------------------

/-- ASCII whitespace stripped by Python's `int(str)` conversion. -/
def isPyWS (c : Char) : Bool :=
  c == ' ' || c == '\t' || c == '\n' || c == '\r' || c == '\x0b' || c == '\x0c'

/-- Strip leading and trailing whitespace, as `int(str)` does. -/
def trimWS (cs : List Char) : List Char :=
  ((cs.dropWhile isPyWS).reverse.dropWhile isPyWS).reverse

/-- Decimal value of a digit character. -/
def digitVal (c : Char) : Nat := c.toNat - 48

/-- Digit run of a Python integer literal after its first digit: further
digits, or `_` separators that must sit between two digits.  `acc` is the
value accumulated so far. -/
def digitsUSVal : List Char → Nat → Option Nat
  | [], acc => some acc
  | c :: rest, acc =>
    if c.isDigit then digitsUSVal rest (10 * acc + digitVal c)
    else if c == '_' then
      match rest with
      | [] => none
      | d :: rest2 =>
        if d.isDigit then digitsUSVal rest2 (10 * acc + digitVal d) else none
    else none

/-- Python's `int(str)` on ASCII input: optional surrounding whitespace, an
optional `+`/`-` sign, then one or more digits with optional single `_`
separators between digits.  Returns `none` where `int(...)` raises
`ValueError`. -/
def pyIntNoWS : List Char → Option Int
  | [] => none
  | c :: rest =>
    if c == '+' then
      match rest with
      | [] => none
      | d :: r2 => if d.isDigit then (digitsUSVal r2 (digitVal d)).map Int.ofNat else none
    else if c == '-' then
      match rest with
      | [] => none
      | d :: r2 =>
        if d.isDigit then (digitsUSVal r2 (digitVal d)).map (fun n => -(n : Int)) else none
    else if c.isDigit then (digitsUSVal rest (digitVal c)).map Int.ofNat
    else none

def pyIntVal (cs : List Char) : Option Int := pyIntNoWS (trimWS cs)

/-- Python's `str.split("-")`: cut at every `-`, keeping empty pieces
(so `"".split("-") == [""]`). -/
def splitDash : List Char → List (List Char)
  | [] => [[]]
  | c :: rest =>
    if c == '-' then [] :: splitDash rest
    else
      match splitDash rest with
      | p :: ps => (c :: p) :: ps
      | [] => [[c]]

/-- Unanchored search for the regex `\d+-\d+` (the pydantic `Field` pattern
of `Semester`): such a match exists iff some digit, `-`, digit occur
consecutively. -/
def hasDigitDashDigit : List Char → Bool
  | a :: b :: c :: rest =>
    (a.isDigit && b == '-' && c.isDigit) || hasDigitDashDigit (b :: c :: rest)
  | _ => false

/-- Model of `validate_semester` (the `AfterValidator` body):
`a, b = list(map(int, s.split("-")))` then
`130 >= a >= 90 and 2 >= b >= 1`; anything else raises. -/
def validate_semester (cs : List Char) : Bool :=
  match splitDash cs with
  | [a, b] =>
    match pyIntVal a, pyIntVal b with
    | some x, some y => decide (90 ≤ x ∧ x ≤ 130 ∧ 1 ≤ y ∧ y ≤ 2)
    | _, _ => false
  | _ => false

/-- The full pydantic `Semester` type: the `Field` pattern search runs
first, then the `AfterValidator`. -/
def semesterAccepted (s : String) : Bool :=
  hasDigitDashDigit s.data && validate_semester s.data

/-- Decimal value of a digit list (most significant first). -/
def decVal (cs : List Char) : Nat := cs.foldl (fun acc c => 10 * acc + digitVal c) 0

/-- Modelled from the spec: a string "matching `\"<year>-<term>\"` with year
in [90,130] and term in {1,2}" — i.e. the whole string is a digit run, one
dash, and a digit run, with the two decimal values in range.  Used only to
compare the claim's acceptance condition against the code's. -/
def specSemesterOk (s : String) : Bool :=
  match splitDash s.data with
  | [a, b] =>
    !a.isEmpty && !b.isEmpty && a.all Char.isDigit && b.all Char.isDigit &&
      decide (90 ≤ decVal a ∧ decVal a ≤ 130 ∧ 1 ≤ decVal b ∧ decVal b ≤ 2)
  | _ => false

/-- A character that engages none of Python `int`'s lenient parsing:
ASCII, not whitespace, not `+`, not `_`. -/
def cleanChar (c : Char) : Bool :=
  c.toNat < 128 && !isPyWS c && c != '+' && c != '_'

/-- A string of clean characters (on these the code and the spec's
`"<year>-<term>"` reading agree). -/
def cleanSemStr (s : String) : Bool := s.data.all cleanChar

example : semesterAccepted "111-2" = true := by decide
example : semesterAccepted "89-1" = false := by decide
example : semesterAccepted "131-1" = false := by decide
example : semesterAccepted "110-3" = false := by decide
example : semesterAccepted "+110-2" = true := by decide
example : specSemesterOk "+110-2" = false := by decide
example : specSemesterOk "111-2" = true := by decide
example : semesterAccepted "1_10-2" = true := by decide
example : semesterAccepted "110 -2" = false := by decide

-- ---------------------------------------------------------------------------
-- SHA-256 (hashlib.sha256), over lists of byte values
-- ---------------------------------------------------------------------------

/-- Truncate to a 32-bit word. -/
def w32 (n : Nat) : Nat := n % 4294967296

/-- 32-bit modular addition. -/
def wadd (a b : Nat) : Nat := w32 (a + b)

/-- 32-bit right rotation. -/
def rotr (x n : Nat) : Nat := w32 ((x >>> n) ||| (x <<< (32 - n)))

/-- 32-bit complement. -/
def wnot (x : Nat) : Nat := Nat.xor x 4294967295

def ch (x y z : Nat) : Nat := Nat.xor (Nat.land x y) (Nat.land (wnot x) z)

def maj (x y z : Nat) : Nat :=
  Nat.xor (Nat.xor (Nat.land x y) (Nat.land x z)) (Nat.land y z)

def bigSigma0 (x : Nat) : Nat := Nat.xor (Nat.xor (rotr x 2) (rotr x 13)) (rotr x 22)

def bigSigma1 (x : Nat) : Nat := Nat.xor (Nat.xor (rotr x 6) (rotr x 11)) (rotr x 25)

def smallSigma0 (x : Nat) : Nat := Nat.xor (Nat.xor (rotr x 7) (rotr x 18)) (x >>> 3)

def smallSigma1 (x : Nat) : Nat := Nat.xor (Nat.xor (rotr x 17) (rotr x 19)) (x >>> 10)

/-- The 64 SHA-256 round constants (FIPS 180-4, in decimal). -/
def sha256K : List Nat :=
  [1116352408, 1899447441, 3049323471, 3921009573,
   961987163, 1508970993, 2453635748, 2870763221,
   3624381080, 310598401, 607225278, 1426881987,
   1925078388, 2162078206, 2614888103, 3248222580,
   3835390401, 4022224774, 264347078, 604807628,
   770255983, 1249150122, 1555081692, 1996064986,
   2554220882, 2821834349, 2952996808, 3210313671,
   3336571891, 3584528711, 113926993, 338241895,
   666307205, 773529912, 1294757372, 1396182291,
   1695183700, 1986661051, 2177026350, 2456956037,
   2730485921, 2820302411, 3259730800, 3345764771,
   3516065817, 3600352804, 4094571909, 275423344,
   430227734, 506948616, 659060556, 883997877,
   958139571, 1322822218, 1537002063, 1747873779,
   1955562222, 2024104815, 2227730452, 2361852424,
   2428436474, 2756734187, 3204031479, 3329325298]

/-- Working state of the compression function. -/
structure Sha256State where
  a : Nat
  b : Nat
  c : Nat
  d : Nat
  e : Nat
  f : Nat
  g : Nat
  h : Nat
  deriving Repr

/-- The SHA-256 initial hash value (FIPS 180-4, in decimal). -/
def sha256Init : Sha256State :=
  ⟨1779033703, 3144134277, 1013904242, 2773480762,
   1359893119, 2600822924, 528734635, 1541459225⟩

/-- The message length in bits as 8 big-endian bytes. -/
def lenBytes8 (n : Nat) : List Nat :=
  [n >>> 56 % 256, n >>> 48 % 256, n >>> 40 % 256, n >>> 32 % 256,
   n >>> 24 % 256, n >>> 16 % 256, n >>> 8 % 256, n % 256]

/-- SHA-256 padding: `0x80`, zeros to 56 mod 64, then the bit length. -/
def sha256pad (msg : List Nat) : List Nat :=
  msg ++ 0x80 :: List.replicate ((64 + 55 - msg.length % 64) % 64) 0
      ++ lenBytes8 (8 * msg.length)

/-- Split a byte stream into 64-byte blocks (`fuel` bounds the number of
steps; each step consumes 64 bytes, so the byte count is ample fuel). -/
def toBlocksAux : Nat → List Nat → List (List Nat)
  | 0, _ => []
  | _, [] => []
  | fuel + 1, c :: rest => (c :: rest).take 64 :: toBlocksAux fuel ((c :: rest).drop 64)

/-- Split a byte stream into 64-byte blocks. -/
def toBlocks (l : List Nat) : List (List Nat) := toBlocksAux l.length l

/-- Big-endian 32-bit words from bytes. -/
def bytesToWords : List Nat → List Nat
  | a :: b :: c :: d :: rest =>
    (a * 16777216 + b * 65536 + c * 256 + d) :: bytesToWords rest
  | _ => []

/-- One extension step of the message schedule. -/
def schedStep (w : List Nat) : List Nat :=
  let n := w.length
  w ++ [wadd (wadd (smallSigma1 (w.getD (n - 2) 0)) (w.getD (n - 7) 0))
             (wadd (smallSigma0 (w.getD (n - 15) 0)) (w.getD (n - 16) 0))]

/-- Extend 16 message words to the 64-word schedule. -/
def sha256schedule (w16 : List Nat) : List Nat :=
  (List.range 48).foldl (fun acc _ => schedStep acc) w16

/-- One round of the compression function. -/
def sha256round (st : Sha256State) (kw : Nat × Nat) : Sha256State :=
  let t1 := wadd (wadd (wadd st.h (bigSigma1 st.e)) (wadd (ch st.e st.f st.g) kw.1)) kw.2
  let t2 := wadd (bigSigma0 st.a) (maj st.a st.b st.c)
  ⟨wadd t1 t2, st.a, st.b, st.c, wadd st.d t1, st.e, st.f, st.g⟩

/-- Compress one 64-byte block into the running hash state. -/
def sha256block (st : Sha256State) (block : List Nat) : Sha256State :=
  let ws := sha256schedule (bytesToWords block)
  let r := (sha256K.zip ws).foldl sha256round st
  ⟨wadd st.a r.a, wadd st.b r.b, wadd st.c r.c, wadd st.d r.d,
   wadd st.e r.e, wadd st.f r.f, wadd st.g r.g, wadd st.h r.h⟩

/-- The eight 32-bit words of the SHA-256 digest of a byte stream. -/
def sha256words (msg : List Nat) : List Nat :=
  let fin := (toBlocks (sha256pad msg)).foldl sha256block sha256Init
  [fin.a, fin.b, fin.c, fin.d, fin.e, fin.f, fin.g, fin.h]

/-- Lowercase hex digit of `n % 16` (`0`-`9` then `a`-`f`, by code point). -/
def hexChar (n : Nat) : Char :=
  if n % 16 < 10 then Char.ofNat (48 + n % 16) else Char.ofNat (87 + n % 16)

/-- The 8 hex characters of a 32-bit word, most significant first. -/
def wordHex (w : Nat) : List Char :=
  [hexChar (w >>> 28), hexChar (w >>> 24), hexChar (w >>> 20), hexChar (w >>> 16),
   hexChar (w >>> 12), hexChar (w >>> 8), hexChar (w >>> 4), hexChar w]

/-- Model of `hashlib.sha256(...).hexdigest()` as a character list (64 hex chars). -/
def sha256hexChars (msg : List Nat) : List Char :=
  ((sha256words msg).map wordHex).flatten

-- The empty-string digest, cross-checked against hashlib:
-- e3b0c44298fc1c149afbf4c8996fb92427ae41e4649b934ca495991b7852b855
example : String.mk (sha256hexChars []) =
    "e3b0c44298fc1c149afbf4c8996fb92427ae41e4649b934ca495991b7852b855" := by decide

-- ---------------------------------------------------------------------------
-- str.encode() (UTF-8) and Python repr of strings / the key tuple
-- ---------------------------------------------------------------------------

/-- UTF-8 encoding of one character (`str.encode()`). -/
def utf8Char (c : Char) : List Nat :=
  let n := c.toNat
  if n < 128 then [n]
  else if n < 2048 then [192 + n / 64, 128 + n % 64]
  else if n < 65536 then [224 + n / 4096, 128 + n / 64 % 64, 128 + n % 64]
  else [240 + n / 262144, 128 + n / 4096 % 64, 128 + n / 64 % 64, 128 + n % 64]

/-- UTF-8 encoding of a string. -/
def utf8Bytes (s : String) : List Nat := (s.data.map utf8Char).flatten

/-- Python `repr` escaping of one character inside a string quoted with
`q`: backslash and the quote are escaped, `\n`, `\r`, `\t` get their short
escapes, other ASCII control characters (and DEL) become `\xhh`.  Printable
characters are kept literally (the embedding covers the printable range;
non-printable non-ASCII escaping is out of scope — no input used here
contains such characters). -/
def pyEscapeChar (q c : Char) : List Char :=
  if c == '\\' then ['\\', '\\']
  else if c == q then ['\\', q]
  else if c == '\n' then ['\\', 'n']
  else if c == '\r' then ['\\', 'r']
  else if c == '\t' then ['\\', 't']
  else if c.toNat < 32 || c.toNat == 127 then
    ['\\', 'x', hexChar (c.toNat / 16), hexChar c.toNat]
  else [c]

/-- Python `repr` of a string: single quotes by default, double quotes when
the string contains `'` but no `"`. -/
def pyReprStr (s : String) : String :=
  let q : Char := if s.data.contains '\'' && !s.data.contains '"' then '"' else '\''
  String.mk (q :: (s.data.map (pyEscapeChar q)).flatten ++ [q])

/-- Python `repr` of an `Optional[str]`: `None` or the string repr. -/
def pyReprOpt : Option String → String
  | none => "None"
  | some s => pyReprStr s

/-- Model of `repr((self.course_id1, self.class_id, self.semester))` — the Python
repr of the key tuple, in the source's field order. -/
def pyReprTriple (course_id1 : String) (class_id : Option String) (semester : String) : String :=
  "(" ++ pyReprStr course_id1 ++ ", " ++ pyReprOpt class_id ++ ", " ++ pyReprStr semester ++ ")"

example : pyReprTriple "CSIE1212" (some "01") "110-2" = "('CSIE1212', '01', '110-2')" := by decide
example : pyReprTriple "CSIE1212" none "110-2" = "('CSIE1212', None, '110-2')" := by decide

/-- Model of `GradeElement.get_id`:
`hashlib.sha256(repr((course_id1, class_id, semester)).encode()).hexdigest()[:16]`. -/
def get_id (course_id1 : String) (class_id : Option String) (semester : String) : String :=
  String.mk ((sha256hexChars (utf8Bytes (pyReprTriple course_id1 class_id semester))).take 16)

-- Cross-checked against hashlib.sha256 in CPython:
-- sha256(b"('CSIE1212', '01', '110-2')").hexdigest()[:16] == "28b57609be7d02ad"
example : get_id "CSIE1212" (some "01") "110-2" = "28b57609be7d02ad" := by decide

/-- Modelled from the spec: the canonical, delimiter-joined key string the
spec proposes for the identifier (§9: `course_code + "\u0000" +
class_section + "\u0000" + semester`).  Used only to compare against the
string the code actually hashes. -/
def canonicalJoinSpec (course_code class_section semester : String) : String :=
  course_code ++ "\x00" ++ class_section ++ "\x00" ++ semester

-- ---------------------------------------------------------------------------
-- GradeElement (src/app/models.py, class GradeElement / GradeBase)
-- ---------------------------------------------------------------------------

/-- Model of `class GradeElement(GradeBase)`: the record a successful construction
produces.  `id` is set by `__init__` after field validation. -/
structure GradeElement where
  course_id1 : String
  semester : String
  lecturer : Option String
  class_id : Option String
  segments : List Segment
  id : String
  deriving DecidableEq, Repr

/-- The pydantic pattern `r".+?\d+"` on `course_id1`, searched unanchored:
a match exists iff some digit is preceded by a character that is not a
newline (`.` does not match `\n`). -/
def id1PatternOk : List Char → Bool
  | a :: b :: rest => (a != '\n' && b.isDigit) || id1PatternOk (b :: rest)
  | _ => false

/-- Validation of an explicitly supplied `id` field: pydantic enforces
`min_length=16, max_length=16` on supplied values (the default `""` is not
validated, and `__init__` overwrites the field in any case). -/
def suppliedIdBad : Option String → Bool
  | none => false
  | some i => i.length != 16

/-- Construction of a `GradeElement`: pydantic validates the fields in
declaration order — `course_id1` pattern, `semester` (pattern +
`validate_semester`), the segment records (`GradeInt` bounds), the
`valiadte_grade_eles` field validator, and a supplied `id`'s length — and
then `__init__` overwrites `id` with `get_id()`. -/
def buildGradeElement (course_id1 semester : String) (lecturer class_id : Option String)
    (rawSegments : List (Int × Int × ℚ)) (suppliedId : Option String) :
    Except VErr GradeElement :=
  if ¬ id1PatternOk course_id1.data then .error .invalidCourseId
  else if ¬ semesterAccepted semester then .error .invalidSemesterFormat
  else
    match rawSegments.mapM Segment.from_iterable with
    | .error e => .error e
    | .ok segs0 =>
      match valiadte_grade_eles segs0 with
      | .error e => .error e
      | .ok segs =>
        if suppliedIdBad suppliedId then .error .invalidIdLen
        else .ok { course_id1 := course_id1, semester := semester, lecturer := lecturer,
                   class_id := class_id, segments := segs,
                   id := get_id course_id1 class_id semester }

example :
    (buildGradeElement "CSIE1212" "110-2" none (some "01") [(0, 8, 91), (9, 9, 9)] none).isOk
      = true := by decide
example :
    buildGradeElement "CSIE1212" "110-2" none (some "01") [(0, 7, 50), (9, 9, 50)] none
      = .error .nonContiguous := by decide
example :
    (buildGradeElement "CSIE1212" "110-2" none (some "01") [(5, 9, 100)] none).isOk
      = true := by decide

example : valiadte_grade_eles [⟨0, 8, 91⟩, ⟨9, 9, 9⟩] = .ok [⟨0, 8, 91⟩, ⟨9, 9, 9⟩] := by decide
example : valiadte_grade_eles [⟨0, 7, 50⟩, ⟨9, 9, 50⟩] = .error .nonContiguous := by decide
example : valiadte_grade_eles [⟨5, 9, 100⟩] = .ok [⟨5, 9, 100⟩] := by decide
example : valiadte_grade_eles [⟨0, 9, 98⟩] = .error .sumMismatch := by decide

-- ---------------------------------------------------------------------------
-- GradeInfo.valid_dist (src/app/models.py, class GradeInfo)
-- ---------------------------------------------------------------------------

/-- Model of `GradeInfo.valid_dist`: the `dist` field is typed
`tuple[float, float, float]`, so pydantic has coerced it to length 3 before
the validator runs; the validator itself raises iff
`math.isclose(sum(v), 100, abs_tol=1) and len(v) != 3`. -/
def valid_dist (v : List ℚ) : Except VErr (List ℚ) :=
  if isclose v.sum 100 1 ∧ v.length ≠ 3 then .error .invalidDist else .ok v

-- ---------------------------------------------------------------------------
-- Page (src/app/models.py, class Page)
-- ---------------------------------------------------------------------------

/-- Model of `class Page(BaseModel)`: fields `content: str` and `hashCode: int`.
The `parse_content` and `validate_hash` methods exist in the class body,
but their `@field_validator("content")` and
`@model_validator(mode="after")` decorators are commented out, so pydantic
registers no validator for this model. -/
structure Page where
  content : String
  hashCode : Int
  deriving DecidableEq, Repr

/-- Construction of a `Page`: with no registered validators, field typing
is the only check, so construction always succeeds and stores the
submitted values unchanged (in particular `content` is never
base64-decoded and the checksum is never recomputed). -/
def mkPage (content : String) (hashCode : Int) : Except VErr Page :=
  .ok { content := content, hashCode := hashCode }

/-- The unregistered `validate_hash` method body: raises
`RequestValidationError` iff the declared `hashCode` differs from
`hashCode(self.content)` — note it would hash the stored `content` string
as is, not decoded bytes.  The checksum function `hashCode` lives in the
repository's `utils` module, which is not among the sources; it is taken
as a parameter `F` here. -/
def validate_hash (F : String → Int) (p : Page) : Except VErr Page :=
  if p.hashCode ≠ F p.content then .error .integrityMismatch else .ok p

-- ---------------------------------------------------------------------------
-- Helper definitions for the theorems
-- ---------------------------------------------------------------------------

/-- A lowercase hexadecimal character. -/
def isHexChar (c : Char) : Bool :=
  c.isDigit || (c == 'a' || c == 'b' || c == 'c' || c == 'd' || c == 'e' || c == 'f')

-- ---------------------------------------------------------------------------
-- Shared lemmas
-- ---------------------------------------------------------------------------

theorem hexChar_isHexChar (n : Nat) : isHexChar (hexChar n) = true := by
  have h : n % 16 < 16 := Nat.mod_lt _ (by decide)
  unfold hexChar
  set k := n % 16 with hk
  interval_cases k <;> decide

theorem sha256words_length (m : List Nat) : (sha256words m).length = 8 := rfl

theorem wordHex_length (w : Nat) : (wordHex w).length = 8 := rfl

theorem sum_map_length_wordHex (ws : List Nat) :
    (List.map List.length (List.map wordHex ws)).sum = 8 * ws.length := by
  induction ws with
  | nil => rfl
  | cons w t ih =>
    simp only [List.map_cons, List.sum_cons, List.length_cons, ih, wordHex_length]
    omega

theorem sha256hexChars_length (m : List Nat) : (sha256hexChars m).length = 64 := by
  unfold sha256hexChars
  rw [List.length_flatten, sum_map_length_wordHex, sha256words_length]

theorem mem_wordHex_isHex (w : Nat) (c : Char) (hc : c ∈ wordHex w) :
    isHexChar c = true := by
  unfold wordHex at hc
  simp only [List.mem_cons, List.mem_singleton, List.not_mem_nil, or_false] at hc
  rcases hc with h | h | h | h | h | h | h | h <;>
    (subst h; exact hexChar_isHexChar _)

theorem sha256hexChars_all_hex (m : List Nat) (c : Char)
    (hc : c ∈ sha256hexChars m) : isHexChar c = true := by
  unfold sha256hexChars at hc
  rw [List.mem_flatten] at hc
  obtain ⟨l, hl, hcl⟩ := hc
  rw [List.mem_map] at hl
  obtain ⟨w, -, rfl⟩ := hl
  exact mem_wordHex_isHex w c hcl

-- ---------------------------------------------------------------------------
-- Claim theorems
-- ---------------------------------------------------------------------------

/-- C1 (code bug): the claim says constructing a content submission fails
with `IntegrityMismatch` whenever the recomputed checksum disagrees with
the declared one.  In the code the `field_validator` / `model_validator`
decorators on `Page.parse_content` and `Page.validate_hash` are commented
out, so pydantic never runs either: every `Page` construction succeeds,
for any `content` and any declared `hashCode`, and the content is never
base64-decoded. -/
theorem c1_page_construction_never_verifies (content : String) (hashCode : Int) :
    mkPage content hashCode = .ok { content := content, hashCode := hashCode } := rfl

/-- C2 (counterexample): the string actually hashed by `get_id` for the
triple `("CSIE1212", "01", "110-2")` is the Python tuple repr
`"('CSIE1212', '01', '110-2')"` — a language-native structural
representation: it differs from the spec's canonical delimiter-joined
string and does not even begin with the course code, as any delimiter
join of the three fields would. -/
theorem c2_hash_input_is_tuple_repr :
    pyReprTriple "CSIE1212" (some "01") "110-2" = "('CSIE1212', '01', '110-2')" ∧
    pyReprTriple "CSIE1212" (some "01") "110-2" ≠
      canonicalJoinSpec "CSIE1212" "01" "110-2" ∧
    (pyReprTriple "CSIE1212" (some "01") "110-2").data.take 8 ≠ "CSIE1212".data := by
  refine ⟨by decide, by decide, by decide⟩

/-- C2 (amended): the id is obtained by hashing the Python `repr` of the
tuple `(course_id1, class_id, semester)` — a language-native structural
representation, not a canonical delimiter join — through SHA-256, and
truncating the hex digest to exactly 16 hexadecimal characters.  The
concrete value agrees with CPython's `hashlib.sha256`. -/
theorem c2_id_is_16_hex_of_sha256_of_repr :
    (∀ (c : String) (cl : Option String) (s : String),
        (get_id c cl s).length = 16 ∧ ((get_id c cl s).data.all isHexChar) = true) ∧
    get_id "CSIE1212" (some "01") "110-2" = "28b57609be7d02ad" := by
  constructor
  · intro c cl s
    constructor
    · show (List.take 16 (sha256hexChars _)).length = 16
      rw [List.length_take, sha256hexChars_length]
      omega
    · rw [List.all_eq_true]
      intro ch hch
      have hsub : ch ∈ sha256hexChars (utf8Bytes (pyReprTriple c cl s)) :=
        List.take_subset 16 _ hch
      exact sha256hexChars_all_hex _ ch hsub
  · decide

/-- C3 (code bug): the claim (and the `segments` field's own description,
"taking up the whole [0, 9] range") requires `segments[0].low == 0` and
`segments[last].high == 9` for every successful build, but
`valiadte_grade_eles` only checks the sum tolerance and pairwise
adjacency: a build whose only segment covers `[5, 9]` succeeds. -/
theorem c3_partial_coverage_accepted :
    (buildGradeElement "CSIE1212" "110-2" none (some "01") [(5, 9, 100)] none).toOption.map
        GradeElement.segments = some [{ l := 5, r := 9, value := 100 }] := by decide

/-- C4 (counterexample): the claim requires `InvalidRange` for `low > high`
and `InvalidWeight` for negative weight, but the triple `(5, 2, -1)` —
low above high *and* negative weight — is accepted. -/
theorem c4_low_gt_high_neg_weight_accepted :
    constructSegment 5 2 (-1) = .ok { l := 5, r := 2, value := -1 } := by decide

/-- C4 (amended): Segment construction fails — always with `InvalidRange` —
exactly when an endpoint lies outside `[0, 9]`; `low > high` and negative
weights are not rejected. -/
theorem c4_segment_bounds_only (l r : Int) (w : ℚ) :
    ((constructSegment l r w).isOk = true ↔ (0 ≤ l ∧ l ≤ 9 ∧ 0 ≤ r ∧ r ≤ 9)) ∧
    (∀ e, constructSegment l r w = .error e → e = .invalidRange) := by
  unfold constructSegment
  by_cases h : 0 ≤ l ∧ l < 10 ∧ 0 ≤ r ∧ r < 10
  · rw [if_pos h]
    exact ⟨⟨fun _ => by omega, fun _ => rfl⟩, fun e he => by cases he⟩
  · rw [if_neg h]
    refine ⟨⟨fun hok => absurd hok (by decide), fun hc => absurd ?_ h⟩,
            fun e he => by injection he with he; exact he.symm⟩
    omega

/-- C4 witness: the amended theorem applied at `(0, 9, -5)`: in-range
endpoints with a negative weight construct successfully. -/
theorem c4_segment_bounds_only_witness :
    (constructSegment 0 9 (-5)).isOk = true :=
  (c4_segment_bounds_only 0 9 (-5)).1.mpr (by decide)

/-- C9: round trip of the flat wire encoding: a validly constructed
segment exposes exactly the triple it was built from, and
`from_iterable` on that triple rebuilds the identical segment. -/
theorem c9_triple_round_trip (l r : Int) (w : ℚ) (seg : Segment)
    (h : constructSegment l r w = .ok seg) :
    Segment.iterTriple seg = (l, r, w) ∧
      Segment.from_iterable (Segment.iterTriple seg) = .ok seg := by
  unfold constructSegment at h
  split_ifs at h with hc
  cases h
  exact ⟨rfl, by unfold Segment.from_iterable constructSegment Segment.iterTriple; rw [if_pos hc]⟩

/-- C9 witness: the round trip at the concrete segment `(0, 9, 91)`. -/
theorem c9_triple_round_trip_witness :
    Segment.iterTriple { l := 0, r := 9, value := 91 } = (0, 9, 91) ∧
      Segment.from_iterable (Segment.iterTriple { l := 0, r := 9, value := 91 })
        = .ok { l := 0, r := 9, value := 91 } :=
  c9_triple_round_trip 0 9 91 _ (by decide)

/-- C10: the `GradeInfo.dist` validator never rejects a 3-tuple: its
rejection condition conjoins the near-100 sum check with `len(v) != 3`,
which is false for every 3-tuple, so every 3-tuple is returned unchanged
and the documented sum constraint is never enforced. -/
theorem c10_valid_dist_never_rejects (v : List ℚ) (h : v.length = 3) :
    valid_dist v = .ok v := by
  unfold valid_dist
  rw [if_neg]
  rintro ⟨-, h3⟩
  exact h3 h

/-- C10 witness: the validator accepts `(30, 30, 40)` unchanged. -/
theorem c10_valid_dist_never_rejects_witness :
    ([30, 30, 40] : List ℚ).length = 3 ∧ valid_dist [30, 30, 40] = .ok [30, 30, 40] :=
  ⟨rfl, c10_valid_dist_never_rejects [30, 30, 40] rfl⟩

/-- For sums checked against 100 with `abs_tol=1`, `math.isclose` is
exactly the absolute comparison `|s - 100| ≤ 1`: the relative-tolerance
arm `1e-9 * max(|s|, 100)` can only dominate when `|s| > 1e9`, which is
incompatible with `|s - 100|` staying below it. -/
theorem isclose_sum_iff (s : ℚ) : isclose s 100 1 = true ↔ |s - 100| ≤ 1 := by
  unfold isclose relTolDefault
  rw [decide_eq_true_iff]
  have habs100 : |(100 : ℚ)| = 100 := by norm_num
  rw [habs100]
  constructor
  · intro h
    rcases le_or_lt ((1 : ℚ) / 1000000000 * max |s| 100) 1 with hb | hb
    · exact h.trans (max_le hb le_rfl)
    · exfalso
      have hA : (1000000000 : ℚ) < max |s| 100 := by linarith
      have hA2 : (100 : ℚ) < |s| := by
        by_contra hle
        push_neg at hle
        rw [max_eq_right hle] at hA
        norm_num at hA
      rw [max_eq_left hA2.le] at h hb hA
      have hD : |s| - 100 ≤ |s - 100| := by
        have h2 := abs_sub_abs_le_abs_sub s (100 : ℚ)
        rwa [habs100] at h2
      have hDle : |s - 100| ≤ 1 / 1000000000 * |s| := h.trans_eq (max_eq_left hb.le)
      linarith
  · intro h
    exact le_max_of_le_right h

/-- C8: the segments validator fails with `SumMismatch` exactly when the
accumulated weight deviates from 100 by more than the absolute tolerance
1; consequently every successfully validated segment list has total
weight in `[99, 101]`. -/
theorem c8_sum_tolerance (v : List Segment) :
    (valiadte_grade_eles v = .error .sumMismatch ↔ 1 < |segSum v - 100|) ∧
    (∀ w, valiadte_grade_eles v = .ok w → 99 ≤ segSum v ∧ segSum v ≤ 101) := by
  unfold valiadte_grade_eles
  by_cases h : isclose (segSum v) 100 1 = true
  · have hle := (isclose_sum_iff (segSum v)).mp h
    rw [if_neg (not_not_intro h)]
    constructor
    · constructor
      · intro he
        by_cases ha : adjacentOk v = true
        · rw [if_neg (not_not_intro ha)] at he
          simp at he
        · rw [if_pos ha] at he
          simp at he
      · intro hgt
        linarith
    · intro w hw
      rcases abs_le.mp hle with ⟨h1, h2⟩
      constructor <;> linarith
  · rw [if_pos h]
    have hgt : 1 < |segSum v - 100| := by
      by_contra hle
      push_neg at hle
      exact h ((isclose_sum_iff _).mpr hle)
    exact ⟨⟨fun _ => hgt, fun _ => rfl⟩, fun w hw => by simp at hw⟩

/-- C8 witness: a validated single segment of weight 100 has its total in
`[99, 101]`. -/
theorem c8_sum_tolerance_witness :
    99 ≤ segSum [{ l := 0, r := 9, value := 100 }] ∧
      segSum [{ l := 0, r := 9, value := 100 }] ≤ 101 :=
  (c8_sum_tolerance [{ l := 0, r := 9, value := 100 }]).2
    [{ l := 0, r := 9, value := 100 }] (by decide)

/-- C5 (counterexample): the claim says build sorts by `low` first, so any
permutation of a sortable-to-valid list succeeds.  The list
`[[0,8,91],[9,9,9]]` builds successfully, but its permutation
`[[9,9,9],[0,8,91]]` is rejected with the contiguity error: no sorting
happens. -/
theorem c5_permutation_rejected :
    buildGradeElement "CSIE1212" "110-2" none (some "01") [(9, 9, 9), (0, 8, 91)] none
      = .error .nonContiguous ∧
    (buildGradeElement "CSIE1212" "110-2" none (some "01") [(0, 8, 91), (9, 9, 9)] none).isOk
      = true := ⟨by decide, by decide⟩

/-- A segment list that passes the adjacency scan and whose segments each
satisfy `l ≤ r` is strictly ascending in `l`. -/
theorem adjacentOk_chain (v : List Segment) (hadj : adjacentOk v = true)
    (hlr : ∀ s ∈ v, s.l ≤ s.r) :
    List.Chain' (fun a b => a.l < b.l) v := by
  induction v with
  | nil => exact List.chain'_nil
  | cons a t ih =>
    cases t with
    | nil => exact List.chain'_singleton a
    | cons b t2 =>
      rw [List.chain'_cons]
      unfold adjacentOk at hadj
      rw [Bool.and_eq_true, beq_iff_eq] at hadj
      refine ⟨?_, ih hadj.2 fun s hs => hlr s (List.mem_cons_of_mem a hs)⟩
      have h1 := hlr a (List.mem_cons_self a _)
      have h2 := hadj.1
      omega

/-- C5 (amended): the validator performs no sorting and checks the
segments in the order given, returning them unchanged; whenever it
succeeds and each segment satisfies `l ≤ r`, the input was already
strictly ascending by `l` (a genuine permutation of it is rejected, as
the counterexample shows). -/
theorem c5_no_sorting (v w : List Segment) (h : valiadte_grade_eles v = .ok w) :
    w = v ∧ ((∀ s ∈ v, s.l ≤ s.r) → List.Chain' (fun a b => a.l < b.l) v) := by
  unfold valiadte_grade_eles at h
  split_ifs at h with h1 h2
  cases h
  exact ⟨rfl, fun hlr => adjacentOk_chain v h2 hlr⟩

/-- C5 witness: the amended theorem at the concrete valid list
`[[0,8,91],[9,9,9]]`. -/
theorem c5_no_sorting_witness :
    List.Chain' (fun a b : Segment => a.l < b.l)
      [{ l := 0, r := 8, value := 91 }, { l := 9, r := 9, value := 9 }] :=
  (c5_no_sorting [{ l := 0, r := 8, value := 91 }, { l := 9, r := 9, value := 9 }]
    [{ l := 0, r := 8, value := 91 }, { l := 9, r := 9, value := 9 }] (by decide)).2 (by decide)

/-- C7: for every successful build, the stored id equals
`get_id(course_id1, class_id, semester)` — a pure function of the triple
alone: it does not depend on the segments, the lecturer, or any
caller-supplied id, so two successful builds with identical triples carry
the identical id. -/
theorem c7_id_derived_from_triple (course_id1 semester : String)
    (lecturer class_id : Option String) (raw : List (Int × Int × ℚ))
    (suppliedId : Option String) (g : GradeElement)
    (h : buildGradeElement course_id1 semester lecturer class_id raw suppliedId = .ok g) :
    g.id = get_id course_id1 class_id semester := by
  unfold buildGradeElement at h
  split at h
  · exact Except.noConfusion h
  · split at h
    · exact Except.noConfusion h
    · split at h
      · exact Except.noConfusion h
      · split at h
        · exact Except.noConfusion h
        · split at h
          · exact Except.noConfusion h
          · cases h
            rfl

/-- C7 witness: a concrete build (with a caller-supplied id, which is
overwritten) carries the id derived from its triple. -/
theorem c7_id_derived_from_triple_witness :
    GradeElement.id { course_id1 := "CSIE1212", semester := "110-2", lecturer := none,
                      class_id := some "01", segments := [{ l := 0, r := 9, value := 100 }],
                      id := "28b57609be7d02ad" } = get_id "CSIE1212" (some "01") "110-2" :=
  c7_id_derived_from_triple "CSIE1212" "110-2" none (some "01") [(0, 9, 100)]
    (some "0123456789abcdef") _ (by decide)

-- ---------------------------------------------------------------------------
-- Lemmas about the semester validation machinery (for C6)
-- ---------------------------------------------------------------------------

theorem splitDash_ne_nil (cs : List Char) : splitDash cs ≠ [] := by
  cases cs with
  | nil => simp [splitDash]
  | cons c rest =>
    unfold splitDash
    by_cases hc : (c == '-') = true
    · rw [if_pos hc]
      simp
    · rw [if_neg hc]
      cases hp : splitDash rest <;> simp

theorem splitDash_one : ∀ (cs a : List Char), splitDash cs = [a] → cs = a ∧ '-' ∉ a := by
  intro cs
  induction cs with
  | nil =>
    intro a h
    simp [splitDash] at h
    subst h
    simp
  | cons c rest ih =>
    intro a h
    unfold splitDash at h
    by_cases hc : (c == '-') = true
    · rw [if_pos hc] at h
      cases hsp : splitDash rest with
      | nil => exact absurd hsp (splitDash_ne_nil rest)
      | cons p ps =>
        rw [hsp] at h
        simp at h
    · rw [if_neg hc] at h
      cases hsp : splitDash rest with
      | nil => exact absurd hsp (splitDash_ne_nil rest)
      | cons p ps =>
        rw [hsp] at h
        simp only [List.cons.injEq] at h
        obtain ⟨ha, hps⟩ := h
        subst hps
        obtain ⟨hr, hnp⟩ := ih p hsp
        subst ha
        refine ⟨by rw [hr], ?_⟩
        intro hmem
        rcases List.mem_cons.mp hmem with heq | hmem2
        · exact absurd (beq_iff_eq.mpr heq.symm) (by simp [hc])
        · exact hnp hmem2

theorem splitDash_two : ∀ (cs a b : List Char), splitDash cs = [a, b] →
    cs = a ++ '-' :: b ∧ '-' ∉ a ∧ '-' ∉ b := by
  intro cs
  induction cs with
  | nil =>
    intro a b h
    simp [splitDash] at h
  | cons c rest ih =>
    intro a b h
    unfold splitDash at h
    by_cases hc : (c == '-') = true
    · rw [if_pos hc] at h
      simp only [List.cons.injEq] at h
      obtain ⟨ha, hrest⟩ := h
      obtain ⟨hr, hnb⟩ := splitDash_one rest b hrest
      have hceq : c = '-' := beq_iff_eq.mp hc
      subst ha
      subst hceq
      subst hr
      exact ⟨rfl, by simp, hnb⟩
    · rw [if_neg hc] at h
      cases hsp : splitDash rest with
      | nil => exact absurd hsp (splitDash_ne_nil rest)
      | cons p ps =>
        rw [hsp] at h
        simp only [List.cons.injEq] at h
        obtain ⟨ha, hps⟩ := h
        subst hps
        obtain ⟨hr, hnp, hnb⟩ := ih p b hsp
        subst ha
        refine ⟨by rw [hr]; rfl, ?_, hnb⟩
        intro hmem
        rcases List.mem_cons.mp hmem with heq | hmem2
        · exact absurd (beq_iff_eq.mpr heq.symm) (by simp [hc])
        · exact hnp hmem2

theorem dropWhile_eq_self_of (p : Char → Bool) (cs : List Char)
    (h : ∀ c ∈ cs, p c = false) : cs.dropWhile p = cs := by
  cases cs with
  | nil => rfl
  | cons c rest =>
    rw [List.dropWhile_cons, h c (List.mem_cons_self c rest)]
    simp

theorem trimWS_eq_self (cs : List Char) (h : ∀ c ∈ cs, isPyWS c = false) :
    trimWS cs = cs := by
  unfold trimWS
  rw [dropWhile_eq_self_of _ _ h,
      dropWhile_eq_self_of _ _ (fun c hc => h c (List.mem_reverse.mp hc))]
  exact List.reverse_reverse cs

theorem digit_beq_false (c x : Char) (h : c.isDigit = true) (hx : x.isDigit = false) :
    (c == x) = false := by
  cases hbeq : c == x
  · rfl
  · rw [beq_iff_eq] at hbeq
    subst hbeq
    rw [h] at hx
    cases hx

theorem digit_not_ws (c : Char) (h : c.isDigit = true) : isPyWS c = false := by
  cases hw : isPyWS c
  · rfl
  · unfold isPyWS at hw
    simp only [Bool.or_eq_true, beq_iff_eq, or_assoc] at hw
    rcases hw with rfl | rfl | rfl | rfl | rfl | rfl <;> exact absurd h (by decide)

theorem cleanChar_props (c : Char) (h : cleanChar c = true) :
    isPyWS c = false ∧ c ≠ '+' ∧ c ≠ '_' := by
  unfold cleanChar at h
  simp only [Bool.and_eq_true, Bool.not_eq_true', bne_iff_ne] at h
  exact ⟨h.1.1.2, h.1.2, h.2⟩

theorem decVal_cons (c : Char) (rest : List Char) :
    decVal (c :: rest) = rest.foldl (fun a d => 10 * a + digitVal d) (digitVal c) := by
  simp [decVal]

theorem digitsUSVal_digits : ∀ (cs : List Char) (acc : Nat),
    (∀ c ∈ cs, c.isDigit = true) →
    digitsUSVal cs acc = some (cs.foldl (fun a c => 10 * a + digitVal c) acc) := by
  intro cs
  induction cs with
  | nil => intro acc _; rfl
  | cons c rest ih =>
    intro acc h
    unfold digitsUSVal
    rw [h c (List.mem_cons_self c rest)]
    simp only [if_true]
    rw [List.foldl_cons]
    exact ih _ (fun d hd => h d (List.mem_cons_of_mem c hd))

theorem digitsUSVal_inv : ∀ (cs : List Char) (acc n : Nat),
    '_' ∉ cs → digitsUSVal cs acc = some n →
    (∀ c ∈ cs, c.isDigit = true) ∧ n = cs.foldl (fun a c => 10 * a + digitVal c) acc := by
  intro cs
  induction cs with
  | nil =>
    intro acc n _ h
    cases h
    exact ⟨by simp, rfl⟩
  | cons c rest ih =>
    intro acc n hus h
    unfold digitsUSVal at h
    by_cases hd : c.isDigit = true
    · rw [if_pos hd] at h
      obtain ⟨hall, hn⟩ := ih _ _ (fun hm => hus (List.mem_cons_of_mem c hm)) h
      refine ⟨fun d hdm => ?_, by rw [List.foldl_cons]; exact hn⟩
      rcases List.mem_cons.mp hdm with rfl | hm
      · exact hd
      · exact hall d hm
    · rw [if_neg hd] at h
      by_cases hu : (c == '_') = true
      · have hmem : ('_' : Char) ∈ c :: rest := by
          rw [beq_iff_eq] at hu
          rw [hu]
          exact List.mem_cons_self _ _
        exact absurd hmem hus
      · rw [if_neg hu] at h
        cases h

theorem pyIntVal_digits (cs : List Char) (hne : cs ≠ [])
    (hd : ∀ c ∈ cs, c.isDigit = true) :
    pyIntVal cs = some (Int.ofNat (decVal cs)) := by
  unfold pyIntVal
  rw [trimWS_eq_self cs (fun c hc => digit_not_ws c (hd c hc))]
  cases cs with
  | nil => exact absurd rfl hne
  | cons c rest =>
    have hcd : c.isDigit = true := hd c (List.mem_cons_self c rest)
    simp only [pyIntNoWS]
    rw [digit_beq_false c '+' hcd (by decide), digit_beq_false c '-' hcd (by decide)]
    simp only [Bool.false_eq_true, if_false]
    rw [if_pos hcd]
    rw [digitsUSVal_digits rest (digitVal c) (fun d hdm => hd d (List.mem_cons_of_mem c hdm))]
    rw [decVal_cons]
    rfl

theorem pyIntVal_inv (cs : List Char) (n : Int)
    (hclean : ∀ c ∈ cs, cleanChar c = true) (hnd : '-' ∉ cs)
    (h : pyIntVal cs = some n) :
    cs ≠ [] ∧ (∀ c ∈ cs, c.isDigit = true) ∧ n = Int.ofNat (decVal cs) := by
  unfold pyIntVal at h
  rw [trimWS_eq_self cs (fun c hc => (cleanChar_props c (hclean c hc)).1)] at h
  cases cs with
  | nil => cases h
  | cons c rest =>
    simp only [pyIntNoWS] at h
    have hplus : (c == '+') = false := by
      cases hbeq : c == '+'
      · rfl
      · rw [beq_iff_eq] at hbeq
        exact absurd hbeq (cleanChar_props c (hclean c (List.mem_cons_self c rest))).2.1
    have hdash : (c == '-') = false := by
      cases hbeq : c == '-'
      · rfl
      · rw [beq_iff_eq] at hbeq
        refine absurd ?_ hnd
        rw [← hbeq]
        exact List.mem_cons_self c rest
    rw [hplus, hdash] at h
    simp only [Bool.false_eq_true, if_false] at h
    by_cases hcd : c.isDigit = true
    · rw [if_pos hcd] at h
      cases hv : digitsUSVal rest (digitVal c) with
      | none => rw [hv] at h; cases h
      | some m =>
        rw [hv] at h
        simp only [Option.map_some'] at h
        have hus : ('_' : Char) ∉ rest := fun hmem =>
          (cleanChar_props '_' (hclean '_' (List.mem_cons_of_mem c hmem))).2.2 rfl
        obtain ⟨hall, hm⟩ := digitsUSVal_inv rest (digitVal c) m hus hv
        refine ⟨by simp, fun d hdm => ?_, ?_⟩
        · rcases List.mem_cons.mp hdm with rfl | hmem
          · exact hcd
          · exact hall d hmem
        · rw [decVal_cons, ← hm]
          injection h with h2
          exact h2.symm
    · rw [if_neg hcd] at h
      cases h

theorem hasDDD_cons (c : Char) (l : List Char) (h : hasDigitDashDigit l = true) :
    hasDigitDashDigit (c :: l) = true := by
  cases l with
  | nil => simp [hasDigitDashDigit] at h
  | cons y t =>
    cases t with
    | nil => simp [hasDigitDashDigit] at h
    | cons z t2 =>
      unfold hasDigitDashDigit
      rw [h]
      simp

theorem hasDDD_append (pre : List Char) (d e : Char) (suf : List Char)
    (hd : d.isDigit = true) (he : e.isDigit = true) :
    hasDigitDashDigit (pre ++ d :: '-' :: e :: suf) = true := by
  induction pre with
  | nil =>
    simp only [List.nil_append, hasDigitDashDigit]
    rw [hd, he]
    simp
  | cons c t ih =>
    rw [List.cons_append]
    exact hasDDD_cons c _ ih

theorem ne_nil_isEmpty_false {α : Type} (l : List α) (h : l ≠ []) :
    l.isEmpty = false := by
  cases l with
  | nil => exact absurd rfl h
  | cons a t => rfl

/-- C6 (counterexample): `"+110-2"` does not match the claim's
`"<year>-<term>"` pattern, yet the full pydantic semester validation
accepts it — the pattern `\d+-\d+` is searched unanchored (it matches the
substring `"110-2"`), and Python's `int("+110")` parses the signed year. -/
theorem c6_plus_sign_accepted :
    specSemesterOk "+110-2" = false ∧ semesterAccepted "+110-2" = true :=
  ⟨by decide, by decide⟩

/-- C6 (amended): on strings of clean characters — ASCII, no whitespace,
no `+`, no `_` — the full semester validation (pattern search plus
`validate_semester`) accepts exactly the strings matching
`"<year>-<term>"` with year in [90, 130] and term in {1, 2}; on other
strings Python's lenient `int()` parsing admits more (see the
counterexample); `"89-1"` fails because its year is below 90. -/
theorem c6_semester_exact_on_clean :
    (∀ s : String, cleanSemStr s = true →
      (semesterAccepted s = true ↔ specSemesterOk s = true)) ∧
    semesterAccepted "89-1" = false := by
  refine ⟨?_, by decide⟩
  intro s hclean
  have hcl : ∀ c ∈ s.data, cleanChar c = true := List.all_eq_true.mp hclean
  unfold semesterAccepted specSemesterOk validate_semester
  cases hp : splitDash s.data with
  | nil => exact absurd hp (splitDash_ne_nil s.data)
  | cons a ps =>
    cases ps with
    | nil => simp
    | cons b ps2 =>
      cases ps2 with
      | cons p3 ps3 => simp
      | nil =>
        obtain ⟨hcs, hna, hnb⟩ := splitDash_two s.data a b hp
        have hcla : ∀ c ∈ a, cleanChar c = true := fun c hc => by
          refine hcl c ?_
          rw [hcs]
          exact List.mem_append_left _ hc
        have hclb : ∀ c ∈ b, cleanChar c = true := fun c hc => by
          refine hcl c ?_
          rw [hcs]
          exact List.mem_append_right _ (List.mem_cons_of_mem _ hc)
        constructor
        · intro hacc
          simp only [Bool.and_eq_true] at hacc
          obtain ⟨hddd, hval⟩ := hacc
          cases hva : pyIntVal a with
          | none => rw [hva] at hval; simp at hval
          | some x =>
            cases hvb : pyIntVal b with
            | none => rw [hva, hvb] at hval; simp at hval
            | some y =>
              rw [hva, hvb] at hval
              simp only [decide_eq_true_iff] at hval
              obtain ⟨hane, hada, hxa⟩ := pyIntVal_inv a x hcla hna hva
              obtain ⟨hbne, hbdb, hyb⟩ := pyIntVal_inv b y hclb hnb hvb
              subst hxa
              subst hyb
              simp only [Bool.and_eq_true]
              refine ⟨⟨⟨⟨?_, ?_⟩, ?_⟩, ?_⟩, ?_⟩
              · rw [ne_nil_isEmpty_false a hane]
                rfl
              · rw [ne_nil_isEmpty_false b hbne]
                rfl
              · exact List.all_eq_true.mpr hada
              · exact List.all_eq_true.mpr hbdb
              · simp only [decide_eq_true_iff]
                simp only [Int.ofNat_eq_coe] at hval
                omega
        · intro hspec
          simp only [Bool.and_eq_true] at hspec
          obtain ⟨⟨⟨⟨hae, hbe⟩, hada⟩, hbdb⟩, hdec⟩ := hspec
          simp only [decide_eq_true_iff] at hdec
          have hane : a ≠ [] := by
            intro hnil
            rw [hnil] at hae
            simp at hae
          have hbne : b ≠ [] := by
            intro hnil
            rw [hnil] at hbe
            simp at hbe
          have hadig : ∀ c ∈ a, c.isDigit = true := List.all_eq_true.mp hada
          have hbdig : ∀ c ∈ b, c.isDigit = true := List.all_eq_true.mp hbdb
          simp only [Bool.and_eq_true]
          constructor
          · obtain ⟨as, d, had⟩ := (List.eq_nil_or_concat a).resolve_left hane
            cases b with
            | nil => exact absurd rfl hbne
            | cons e bs =>
              rw [hcs, had, List.concat_eq_append, List.append_assoc,
                  List.singleton_append]
              refine hasDDD_append as d e bs (hadig d ?_) (hbdig e (List.mem_cons_self e bs))
              rw [had, List.concat_eq_append]
              exact List.mem_append_right _ (List.mem_cons_self d [])
          · rw [pyIntVal_digits a hane hadig, pyIntVal_digits b hbne hbdig]
            show decide (90 ≤ Int.ofNat (decVal a) ∧ Int.ofNat (decVal a) ≤ 130 ∧
              1 ≤ Int.ofNat (decVal b) ∧ Int.ofNat (decVal b) ≤ 2) = true
            simp only [decide_eq_true_iff, Int.ofNat_eq_coe]
            omega

/-- C6 witness: the amended equivalence applied at the clean string
`"89-1"`. -/
theorem c6_semester_exact_on_clean_witness :
    cleanSemStr "89-1" = true ∧
      (semesterAccepted "89-1" = true ↔ specSemesterOk "89-1" = true) :=
  ⟨by decide, c6_semester_exact_on_clean.1 "89-1" (by decide)⟩
